import Mathlib

/-!
Shallow embedding of the VehicleTrak firmware core
(src/gps_esp/gps_esp.ino and src/rtc_btn_smoke_esp/rtc_btn_smoke_esp.ino).

Machine integers: `unsigned long` on the ESP32 is 32 bits, so every value
the C code stores in an `unsigned long` is modelled as a `Nat` reduced
modulo `u32 = 2^32` exactly where the C arithmetic wraps.  `double`
coordinate values are modelled as exact rationals; the `(long)` cast on a
`double` truncates toward zero, which `Int.tdiv` of the rational's
numerator by its denominator reproduces.

The hardware clock (`millis()`) is modelled by feeding each loop tick the
real elapsed-millisecond count `r : Nat`; the code observes `r % u32`,
which is exactly the 32-bit wrapping counter the ESP32 exposes.
-/

namespace VehicleTrak

/-- `unsigned long` modulus on the ESP32 (32-bit). -/
def u32 : Nat := 4294967296

/-- gps_esp.ino line 70: `const unsigned long sendInterval = 60000`. -/
def sendInterval : Nat := 60000

/-- rtc_btn_smoke_esp.ino line 44: `const unsigned long sendInterval = 6000UL`. -/
def rtcSendInterval : Nat := 6000

/-- rtc_btn_smoke_esp.ino lines 103/110: NTP plausibility lower bound `1600000000UL`. -/
def ntpValidEpoch : Nat := 1600000000

/-- gps_esp.ino lines 73-75. -/
def isLeapYear (year : Nat) : Bool :=
  (year % 4 == 0 && year % 100 != 0) || (year % 400 == 0)

/-- gps_esp.ino lines 80-81: the `daysInMonth` array, with entry 2 replaced
by 29 in leap years; out-of-range indices (0 or > 12) hold the array's
written entry 0 only at index 0, and are never read by the loop below. -/
def daysInMonth (leap : Bool) (m : Nat) : Nat :=
  if m = 1 then 31
  else if m = 2 then (if leap then 29 else 28)
  else if m = 3 then 31
  else if m = 4 then 30
  else if m = 5 then 31
  else if m = 6 then 30
  else if m = 7 then 31
  else if m = 8 then 31
  else if m = 9 then 30
  else if m = 10 then 31
  else if m = 11 then 30
  else if m = 12 then 31
  else 0

/-- gps_esp.ino lines 84-97: the running day count since 1970-01-01
(years loop, months loop, plus `day - 1`).  Inputs are the nonnegative
calendar fields a GPS fix delivers; `day - 1` matches the C code for
`day ≥ 1`, the only values a calendar date takes. -/
def epochDays (year month day : Nat) : Nat :=
  (List.range (year - 1970)).foldl
      (fun acc k => acc + if isLeapYear (1970 + k) then 366 else 365) 0
    + (List.range (month - 1)).foldl
        (fun acc k => acc + daysInMonth (isLeapYear year) (k + 1)) 0
    + (day - 1)

/-- gps_esp.ino line 100 before the `unsigned long` store: the exact
(unwrapped) second count. -/
def gpsToEpochRaw (year month day hour minute second : Nat) : Nat :=
  epochDays year month day * 86400 + hour * 3600 + minute * 60 + second

/-- gps_esp.ino lines 78-103: `gpsToEpoch`.  All arithmetic is carried in
`unsigned long`, so the stored result is the exact sum reduced mod 2^32. -/
def gpsToEpoch (year month day hour minute second : Nat) : Nat :=
  gpsToEpochRaw year month day hour minute second % u32

/-- gps_esp.ino lines 106-118: `getGPSEpochUTC`, with the two validity
flags and the six calendar fields passed explicitly in place of the
`gps` object's state. -/
def getGPSEpochUTC (dateValid timeValid : Bool)
    (year month day hour minute second : Nat) : Nat :=
  if dateValid && timeValid then
    gpsToEpoch year month day hour minute second
  else
    0

/-- gps_esp.ino lines 195-196: the `(long)` cast of a `double` truncates
toward zero; on the exact rational model that is the floor for nonnegative
values and the ceiling for negative ones. -/
def castToLong (x : ℚ) : ℤ :=
  if 0 ≤ x then ⌊x⌋ else ⌈x⌉

/-- gps_esp.ino lines 195-196: `((long)(v * 100000)) / 100000.0`,
truncation of a coordinate to 5 decimal places. -/
def trunc5 (x : ℚ) : ℚ :=
  (castToLong (x * 100000) : ℚ) / 100000

/-- gps_esp.ino line 60. -/
def latPath : String := "/latitude"

/-- gps_esp.ino line 61. -/
def lngPath : String := "/longitude"

/-- gps_esp.ino line 62. -/
def timePath : String := "/timestamp"

/-- A JSON leaf value as written by `JsonWriter.create`: a string literal,
a double, or an unsigned integer. -/
inductive JVal where
  | str : String → JVal
  | num : ℚ → JVal
  | nat : Nat → JVal
deriving DecidableEq

/-- gps_esp.ino lines 190-208: the dispatched JSON payload, built from the
raw GPS coordinates and the computed epoch.  Line 205 writes the string
literal `"0.0000000"` for the latitude field; lines 206-207 write the
truncated longitude and the epoch. -/
def buildPayload (latitude longitude : ℚ) (utcEpoch : Nat) :
    List (String × JVal) :=
  [ (latPath, JVal.str "0.0000000"),
    (lngPath, JVal.num (trunc5 longitude)),
    (timePath, JVal.nat utcEpoch) ]

/-- 32-bit unsigned subtraction `a - b`, the value `currentTime -
lastSendTime` takes on `unsigned long` operands (gps_esp.ino line 183,
rtc_btn_smoke_esp.ino line 141). -/
def usub32 (a b : Nat) : Nat :=
  (u32 + a % u32 - b % u32) % u32

/-- Scheduler state shared by both sketches: the stored `lastSendTime`
(an `unsigned long`, always < 2^32) and the history of dispatched
uploads as (real elapsed milliseconds, path key) pairs, most recent
first.  The history is observational bookkeeping; the device keeps no
such list. -/
structure SchedState where
  lastSendTime : Nat
  dispatches : List (Nat × Nat)
deriving DecidableEq, Repr

/-- Boot state: `lastSendTime = 0` (gps_esp.ino line 69,
rtc_btn_smoke_esp.ino line 43), nothing dispatched yet. -/
def initState : SchedState := ⟨0, []⟩

/-- The guarded dispatch step both loops share: when the gate holds, read
`millis()` (the real count `r` wraps to `r % u32`), compare the 32-bit
difference from `lastSendTime` against the interval, and on dispatch
store the new `lastSendTime` and record the upload under `key`. -/
def schedTick (interval : Nat) (gate : Bool) (r key : Nat) (s : SchedState) : SchedState :=
  if gate then
    if interval ≤ usub32 (r % u32) s.lastSendTime then
      { lastSendTime := r % u32, dispatches := (r, key) :: s.dispatches }
    else s
  else s

/-- Inputs one iteration of gps_esp.ino's `loop` observes: the real
elapsed milliseconds and the four gate flags of line 180. -/
structure GpsTickIn where
  millisReal : Nat
  ready : Bool
  locValid : Bool
  dateValid : Bool
  timeValid : Bool
deriving DecidableEq, Repr

/-- gps_esp.ino line 180: `app.ready() && gps.location.isValid() &&
gps.date.isValid() && gps.time.isValid()`. -/
def gpsGate (i : GpsTickIn) : Bool :=
  i.ready && i.locValid && i.dateValid && i.timeValid

/-- gps_esp.ino lines 180-214: the scheduling skeleton of one `loop`
iteration.  The path key is `String(millis())` (line 210), i.e. the
wrapped millis value; the two `millis()` reads of one iteration are
modelled as equal. -/
def gpsLoopTick (s : SchedState) (i : GpsTickIn) : SchedState :=
  schedTick sendInterval (gpsGate i) i.millisReal (i.millisReal % u32) s

/-- A whole gps_esp run: fold the loop over a tick trace from boot. -/
def gpsRun (is : List GpsTickIn) : SchedState :=
  is.foldl gpsLoopTick initState

/-- Inputs one iteration of rtc_btn_smoke_esp.ino's `loop` observes:
real elapsed milliseconds, the auth readiness flag, and the epoch the
RTC would deliver if read this tick. -/
structure RtcTickIn where
  millisReal : Nat
  ready : Bool
  rtcEpoch : Nat
deriving DecidableEq, Repr

/-- rtc_btn_smoke_esp.ino lines 139-174: the scheduling skeleton of one
`loop` iteration; the path key is `String(timestampEpoch)` (line 159). -/
def rtcLoopTick (s : SchedState) (i : RtcTickIn) : SchedState :=
  schedTick rtcSendInterval i.ready i.millisReal i.rtcEpoch s

/-- A whole rtc_btn_smoke_esp run. -/
def rtcRun (is : List RtcTickIn) : SchedState :=
  is.foldl rtcLoopTick initState

/-- A simulated clock trace is physically meaningful when the real
millisecond counts are nondecreasing. -/
def monoTimesB : List Nat → Bool
  | [] => true
  | [_] => true
  | a :: b :: l => decide (a ≤ b) && monoTimesB (b :: l)

/-- rtc_btn_smoke_esp.ino lines 100-107: the bounded NTP wait.  `f j` is
the value `time(nullptr)` returns after `j` iterations of `delay(500)`,
so `millis() - startMillis = 500 * j` when the while condition is
checked the `j`-th time. -/
def ntpWait (f : Nat → Nat) (k : Nat) : Nat :=
  if h : f k < ntpValidEpoch ∧ 500 * k < 10000 then ntpWait f (k + 1) else f k
termination_by 21 - k
decreasing_by
  have h2 := h.2
  omega

/-- Outcome of the boot-time reconciliation: the RTC's epoch afterwards
and whether it was overwritten from NTP. -/
structure NtpResult where
  rtcEpoch : Nat
  synced : Bool
deriving DecidableEq, Repr

/-- rtc_btn_smoke_esp.ino lines 96-119: run the bounded NTP wait; if the
final polled value clears the plausibility bound, `rtc.adjust` overwrites
the RTC with it, otherwise the RTC keeps its previous value and only a
diagnostic line is printed. -/
def ntpSync (f : Nat → Nat) (rtcPrev : Nat) : NtpResult :=
  let now := ntpWait f 0
  if ntpValidEpoch ≤ now then ⟨now, true⟩ else ⟨rtcPrev, false⟩

/-! ### Scheduler invariant -/

/-- Invariant carried along a run: dispatch real times are pairwise
separated by at least the interval, all of them lie at or before the
lower bound `t` on the next tick time, and `lastSendTime` holds the
latest dispatch's wrapped millis value. -/
def Inv (interval : Nat) (s : SchedState) (t : Nat) : Prop :=
  s.dispatches.Pairwise (fun a b => b.1 + interval ≤ a.1)
  ∧ (∀ d ∈ s.dispatches, d.1 ≤ t)
  ∧ (∀ d l, s.dispatches = d :: l → s.lastSendTime = d.1 % u32)

lemma Inv.mono {interval : Nat} {s : SchedState} {t t' : Nat}
    (h : Inv interval s t) (htt : t ≤ t') : Inv interval s t' :=
  ⟨h.1, fun d hd => le_trans (h.2.1 d hd) htt, h.2.2⟩

lemma Inv.init (interval : Nat) : Inv interval initState 0 := by
  refine ⟨List.Pairwise.nil, ?_, ?_⟩
  · intro d hd
    simp [initState] at hd
  · intro d l h
    simp [initState] at h

/-- The wrapped 32-bit elapsed-time comparison is exact over one wrap
period: if the stored time `d` precedes the real time `r` and the 32-bit
difference of their wrapped values clears `interval ≤ 2^32`, then the
real difference does too. -/
lemma usub32_elapsed {interval d r : Nat} (hint : interval ≤ u32)
    (hdr : d ≤ r) (h : interval ≤ usub32 (r % u32) (d % u32)) :
    d + interval ≤ r := by
  simp only [usub32, u32] at *
  omega

lemma schedTick_inv {interval : Nat} (hint : interval ≤ u32)
    {s : SchedState} {t : Nat} (hs : Inv interval s t)
    (gate : Bool) {r : Nat} (key : Nat) (hr : t ≤ r) :
    Inv interval (schedTick interval gate r key s) r := by
  unfold schedTick
  cases gate with
  | false => simpa using hs.mono hr
  | true =>
    rw [if_pos rfl]
    by_cases hc : interval ≤ usub32 (r % u32) s.lastSendTime
    · rw [if_pos hc]
      obtain ⟨hpw, hbd, hlast⟩ := hs
      refine ⟨?_, ?_, ?_⟩
      · rw [List.pairwise_cons]
        refine ⟨?_, hpw⟩
        intro d hd
        cases hds : s.dispatches with
        | nil => rw [hds] at hd; cases hd
        | cons d0 l =>
          rw [hds] at hd hpw hbd
          have hl0 : s.lastSendTime = d0.1 % u32 := hlast d0 l hds
          have h0r : d0.1 + interval ≤ r := by
            refine usub32_elapsed hint (le_trans (hbd d0 ?_) hr) (hl0 ▸ hc)
            exact List.mem_cons_self d0 l
          rcases List.mem_cons.mp hd with h | h
          · rw [h]; exact h0r
          · have := (List.pairwise_cons.mp hpw).1 d h
            omega
      · intro d hd
        rcases List.mem_cons.mp hd with h | h
        · rw [h]
        · exact le_trans (hbd d h) hr
      · intro d l hdl
        rw [List.cons.injEq] at hdl
        rw [← hdl.1]
    · rw [if_neg hc]
      exact hs.mono hr

lemma sendInterval_le_u32 : sendInterval ≤ u32 := by
  simp [sendInterval, u32]

lemma rtcSendInterval_le_u32 : rtcSendInterval ≤ u32 := by
  simp [rtcSendInterval, u32]

lemma monoTimesB_zero_cons {l : List Nat} (h : monoTimesB l = true) :
    monoTimesB (0 :: l) = true := by
  cases l with
  | nil => rfl
  | cons a l' => simp [monoTimesB, h]

lemma gpsRun_inv :
    ∀ (is : List GpsTickIn) (s : SchedState) (t : Nat), Inv sendInterval s t →
      monoTimesB (t :: is.map GpsTickIn.millisReal) = true →
      ∃ t', Inv sendInterval (is.foldl gpsLoopTick s) t' := by
  intro is
  induction is with
  | nil =>
    intro s t h _
    exact ⟨t, h⟩
  | cons i rest ih =>
    intro s t h hm
    simp only [List.map_cons, monoTimesB, Bool.and_eq_true, decide_eq_true_eq] at hm
    exact ih (gpsLoopTick s i) i.millisReal
      (schedTick_inv sendInterval_le_u32 h (gpsGate i) _ hm.1)
      (by simpa [monoTimesB] using hm.2)

lemma rtcRun_inv :
    ∀ (is : List RtcTickIn) (s : SchedState) (t : Nat), Inv rtcSendInterval s t →
      monoTimesB (t :: is.map RtcTickIn.millisReal) = true →
      ∃ t', Inv rtcSendInterval (is.foldl rtcLoopTick s) t' := by
  intro is
  induction is with
  | nil =>
    intro s t h _
    exact ⟨t, h⟩
  | cons i rest ih =>
    intro s t h hm
    simp only [List.map_cons, monoTimesB, Bool.and_eq_true, decide_eq_true_eq] at hm
    exact ih (rtcLoopTick s i) i.millisReal
      (schedTick_inv rtcSendInterval_le_u32 h i.ready _ hm.1)
      (by simpa [monoTimesB] using hm.2)

lemma gpsRun_pairwise (is : List GpsTickIn)
    (h : monoTimesB (is.map GpsTickIn.millisReal) = true) :
    (gpsRun is).dispatches.Pairwise (fun a b => b.1 + sendInterval ≤ a.1) := by
  obtain ⟨t', ht'⟩ := gpsRun_inv is initState 0 (Inv.init _) (monoTimesB_zero_cons h)
  exact ht'.1

lemma rtcRun_pairwise (is : List RtcTickIn)
    (h : monoTimesB (is.map RtcTickIn.millisReal) = true) :
    (rtcRun is).dispatches.Pairwise (fun a b => b.1 + rtcSendInterval ≤ a.1) := by
  obtain ⟨t', ht'⟩ := rtcRun_inv is initState 0 (Inv.init _) (monoTimesB_zero_cons h)
  exact ht'.1

/-- Every dispatch a gps_esp run records comes from one of its ticks,
keyed by that tick's wrapped millis value. -/
lemma gpsRun_dispatch_src :
    ∀ (is : List GpsTickIn) (s : SchedState) (d : Nat × Nat),
      d ∈ (is.foldl gpsLoopTick s).dispatches →
      d ∈ s.dispatches ∨ ∃ i ∈ is, d = (i.millisReal, i.millisReal % u32) := by
  intro is
  induction is with
  | nil =>
    intro s d hd
    exact Or.inl hd
  | cons i rest ih =>
    intro s d hd
    rcases ih (gpsLoopTick s i) d hd with h | h
    · unfold gpsLoopTick schedTick at h
      split at h
      · split at h
        · rcases List.mem_cons.mp h with h1 | h1
          · exact Or.inr ⟨i, by simp, h1⟩
          · exact Or.inl h1
        · exact Or.inl h
      · exact Or.inl h
    · obtain ⟨j, hj, hdj⟩ := h
      exact Or.inr ⟨j, by simp [hj], hdj⟩

/-- Every dispatch an rtc_btn_smoke_esp run records comes from one of its
ticks, keyed by that tick's RTC epoch reading. -/
lemma rtcRun_dispatch_src :
    ∀ (is : List RtcTickIn) (s : SchedState) (d : Nat × Nat),
      d ∈ (is.foldl rtcLoopTick s).dispatches →
      d ∈ s.dispatches ∨ ∃ i ∈ is, d = (i.millisReal, i.rtcEpoch) := by
  intro is
  induction is with
  | nil =>
    intro s d hd
    exact Or.inl hd
  | cons i rest ih =>
    intro s d hd
    rcases ih (rtcLoopTick s i) d hd with h | h
    · unfold rtcLoopTick schedTick at h
      split at h
      · split at h
        · rcases List.mem_cons.mp h with h1 | h1
          · exact Or.inr ⟨i, by simp, h1⟩
          · exact Or.inl h1
        · exact Or.inl h
      · exact Or.inl h
    · obtain ⟨j, hj, hdj⟩ := h
      exact Or.inr ⟨j, by simp [hj], hdj⟩

/-! ### NTP boot-sync lemmas -/

/-- The bounded NTP wait returns one of the polled values, from a poll
index at most 20 (the `millis() - startMillis < 10000` guard with 500 ms
steps), and clears the plausibility bound exactly when some poll within
the budget does. -/
lemma ntpWait_spec (f : Nat → Nat) :
    ∀ (n k : Nat), 20 ≤ k + n → k ≤ 20 →
      (∃ j, k ≤ j ∧ j ≤ 20 ∧ ntpWait f k = f j)
      ∧ (ntpValidEpoch ≤ ntpWait f k ↔
          ∃ j, k ≤ j ∧ j ≤ 20 ∧ ntpValidEpoch ≤ f j) := by
  intro n
  induction n with
  | zero =>
    intro k h1 h2
    have hk : k = 20 := by omega
    subst hk
    rw [ntpWait]
    rw [dif_neg (by omega : ¬(f 20 < ntpValidEpoch ∧ 500 * 20 < 10000))]
    refine ⟨⟨20, le_refl _, le_refl _, rfl⟩, ?_, ?_⟩
    · intro h
      exact ⟨20, le_refl _, le_refl _, h⟩
    · rintro ⟨j, hj1, hj2, hj3⟩
      have : j = 20 := by omega
      rw [← this]
      exact hj3
  | succ n ih =>
    intro k h1 h2
    by_cases hc : f k < ntpValidEpoch ∧ 500 * k < 10000
    · rw [ntpWait, dif_pos hc]
      have hk20 : k < 20 := by omega
      obtain ⟨⟨j, hj1, hj2, hj3⟩, hiff⟩ := ih (k + 1) (by omega) (by omega)
      refine ⟨⟨j, by omega, hj2, hj3⟩, ?_⟩
      rw [hiff]
      constructor
      · rintro ⟨j', h1', h2', h3'⟩
        exact ⟨j', by omega, h2', h3'⟩
      · rintro ⟨j', h1', h2', h3'⟩
        refine ⟨j', ?_, h2', h3'⟩
        rcases Nat.eq_or_lt_of_le h1' with heq | hlt
        · exfalso
          rw [← heq] at h3'
          omega
        · omega
    · rw [ntpWait, dif_neg hc]
      refine ⟨⟨k, le_refl _, h2, rfl⟩, ?_, ?_⟩
      · intro h
        exact ⟨k, le_refl _, h2, h⟩
      · rintro ⟨j, hj1, hj2, hj3⟩
        by_cases hfk : ntpValidEpoch ≤ f k
        · exact hfk
        · exfalso
          have hj20 : k = 20 := by omega
          have : j = 20 := by omega
          rw [this] at hj3
          rw [hj20] at hfk
          omega

/-- One rtc_btn_smoke_esp loop iteration's dispatch decision and stored
pacing state depend only on the millis reading, the readiness flag, and
the previous pacing state — not on the RTC epoch value the tick would
read. -/
lemma rtcLoopTick_congr {s₁ s₂ : SchedState} {i j : RtcTickIn}
    (h1 : s₁.lastSendTime = s₂.lastSendTime)
    (h2 : s₁.dispatches.map Prod.fst = s₂.dispatches.map Prod.fst)
    (hm : i.millisReal = j.millisReal) (hr : i.ready = j.ready) :
    (rtcLoopTick s₁ i).lastSendTime = (rtcLoopTick s₂ j).lastSendTime
    ∧ (rtcLoopTick s₁ i).dispatches.map Prod.fst
        = (rtcLoopTick s₂ j).dispatches.map Prod.fst := by
  unfold rtcLoopTick schedTick
  rw [hm, hr, h1]
  by_cases hrdy : j.ready
  · by_cases hc : rtcSendInterval ≤ usub32 (j.millisReal % u32) s₂.lastSendTime
    · simp [hrdy, hc, h1, h2]
    · simp [hrdy, hc, h1, h2]
  · simp [hrdy, h1, h2]

/-- Run-level version of `rtcLoopTick_congr`: traces agreeing on millis
and readiness produce the same dispatch times and pacing state. -/
lemma rtcRun_sched_independent :
    ∀ (tr₁ tr₂ : List RtcTickIn) (s₁ s₂ : SchedState),
      s₁.lastSendTime = s₂.lastSendTime →
      s₁.dispatches.map Prod.fst = s₂.dispatches.map Prod.fst →
      tr₁.map (fun i => (i.millisReal, i.ready))
          = tr₂.map (fun i => (i.millisReal, i.ready)) →
      (tr₁.foldl rtcLoopTick s₁).dispatches.map Prod.fst
          = (tr₂.foldl rtcLoopTick s₂).dispatches.map Prod.fst
      ∧ (tr₁.foldl rtcLoopTick s₁).lastSendTime
          = (tr₂.foldl rtcLoopTick s₂).lastSendTime := by
  intro tr₁
  induction tr₁ with
  | nil =>
    intro tr₂ s₁ s₂ h1 h2 h3
    cases tr₂ with
    | nil => exact ⟨h2, h1⟩
    | cons _ _ => simp at h3
  | cons i rest ih =>
    intro tr₂ s₁ s₂ h1 h2 h3
    cases tr₂ with
    | nil => simp at h3
    | cons j rest₂ =>
      simp only [List.map_cons, List.cons.injEq, Prod.mk.injEq] at h3
      obtain ⟨⟨hm, hr⟩, hrest⟩ := h3
      obtain ⟨hl, hd⟩ := rtcLoopTick_congr h1 h2 hm hr
      exact ih rest₂ (rtcLoopTick s₁ i) (rtcLoopTick s₂ j) hl hd hrest

lemma gpsRun_gate_closed :
    ∀ (is : List GpsTickIn) (s : SchedState),
      (∀ i ∈ is, i.ready = false) → is.foldl gpsLoopTick s = s := by
  intro is
  induction is with
  | nil =>
    intro s _
    rfl
  | cons i rest ih =>
    intro s h
    have hi : i.ready = false := h i (List.mem_cons_self i rest)
    have hstep : gpsLoopTick s i = s := by
      simp [gpsLoopTick, schedTick, gpsGate, hi]
    rw [List.foldl_cons, hstep]
    exact ih s (fun j hj => h j (List.mem_cons_of_mem i hj))

lemma rtcRun_gate_closed :
    ∀ (is : List RtcTickIn) (s : SchedState),
      (∀ i ∈ is, i.ready = false) → is.foldl rtcLoopTick s = s := by
  intro is
  induction is with
  | nil =>
    intro s _
    rfl
  | cons i rest ih =>
    intro s h
    have hi : i.ready = false := h i (List.mem_cons_self i rest)
    have hstep : rtcLoopTick s i = s := by
      simp [rtcLoopTick, schedTick, hi]
    rw [List.foldl_cons, hstep]
    exact ih s (fun j hj => h j (List.mem_cons_of_mem i hj))

/-! ### Claim theorems -/

/-- C2: the calendar-to-epoch conversion matches the reference epoch on
the spec's two test vectors, `gpsToEpoch 1970 1 1 0 0 0 = 0` and
`gpsToEpoch 2024 3 1 0 0 0 = 1709251200` (the latter crossing the
2024 leap-year February). -/
theorem gpsToEpoch_test_vectors :
    gpsToEpoch 1970 1 1 0 0 0 = 0 ∧ gpsToEpoch 2024 3 1 0 0 0 = 1709251200 := by
  decide

/-- C7: the multiply-by-10^5, cast-to-long, divide-by-10^5 transformation
of gps_esp.ino lines 195-196 truncates toward zero: 12.3456789 becomes
12.34567, not the rounded 12.34568. -/
theorem trunc5_truncates_toward_zero :
    trunc5 (123456789 / 10000000 : ℚ) = 1234567 / 100000
    ∧ trunc5 (123456789 / 10000000 : ℚ) ≠ 1234568 / 100000 := by
  constructor
  · rw [trunc5, castToLong]
    norm_num
  · rw [trunc5, castToLong]
    norm_num

/-- C10: the sentinel is ambiguous — a valid GPS reading of
1970-01-01T00:00:00 makes `getGPSEpochUTC` return 0, the same value it
returns when the date or time validity flag is down, so the caller
cannot tell that valid instant from clock-unavailable. -/
theorem sentinel_ambiguous_at_epoch_zero :
    getGPSEpochUTC true true 1970 1 1 0 0 0 = 0
    ∧ getGPSEpochUTC false false 1970 1 1 0 0 0 = 0
    ∧ getGPSEpochUTC true true 1970 1 1 0 0 0
        = getGPSEpochUTC false true 2024 6 15 12 30 45 := by
  decide

/-- C1 (defect witness): the dispatched payload has exactly the three
configured fields, but gps_esp.ino line 205 stores the string literal
`"0.0000000"` under `/latitude` instead of the truncated computed
latitude — the payload's latitude field is not the truncated coordinate
the spec (and the sketch's own comments) intend. -/
theorem payload_latitude_placeholder :
    (buildPayload (123456789 / 10000000 : ℚ) (771234567 / 10000000 : ℚ)
        1709251200).map Prod.fst = [latPath, lngPath, timePath]
    ∧ (buildPayload (123456789 / 10000000 : ℚ) (771234567 / 10000000 : ℚ)
        1709251200).head? = some (latPath, JVal.str "0.0000000")
    ∧ JVal.str "0.0000000" ≠ JVal.num (trunc5 (123456789 / 10000000 : ℚ)) := by
  refine ⟨rfl, rfl, ?_⟩
  intro h
  exact JVal.noConfusion h

/-- C5: when the GPS date or time validity flag is false,
`getGPSEpochUTC` returns the sentinel 0, and the loop dispatches nothing
on that tick (its state is untouched). -/
theorem clock_unavailable_suppresses (dv tv : Bool)
    (year month day hour minute second : Nat)
    (st : SchedState) (i : GpsTickIn)
    (hflag : dv = false ∨ tv = false)
    (hi : i.dateValid = false ∨ i.timeValid = false) :
    getGPSEpochUTC dv tv year month day hour minute second = 0
    ∧ gpsLoopTick st i = st := by
  constructor
  · rcases hflag with h | h <;> simp [getGPSEpochUTC, h]
  · rcases hi with h | h <;> simp [gpsLoopTick, schedTick, gpsGate, h]

/-- Witness for C5 at a concrete invalid-clock tick. -/
theorem clock_unavailable_suppresses_witness :
    getGPSEpochUTC false true 2024 3 1 12 0 0 = 0
    ∧ gpsLoopTick initState ⟨60000, true, true, false, true⟩ = initState :=
  clock_unavailable_suppresses false true 2024 3 1 12 0 0 initState
    ⟨60000, true, true, false, true⟩ (Or.inl rfl) (Or.inl rfl)

/-- C4: if the auth session readiness flag is false at every tick, both
sketches dispatch nothing, no matter how much simulated time the trace
spans. -/
theorem auth_not_ready_zero_dispatches
    (is : List GpsTickIn) (rs : List RtcTickIn)
    (hg : ∀ i ∈ is, i.ready = false) (hr : ∀ i ∈ rs, i.ready = false) :
    (gpsRun is).dispatches = [] ∧ (rtcRun rs).dispatches = [] := by
  constructor
  · rw [gpsRun, gpsRun_gate_closed is initState hg]
    rfl
  · rw [rtcRun, rtcRun_gate_closed rs initState hr]
    rfl

/-- Witness for C4 on traces spanning hours of simulated time with auth
never ready. -/
theorem auth_not_ready_zero_dispatches_witness :
    (gpsRun [⟨100, false, true, true, true⟩, ⟨7200000, false, true, true, true⟩]).dispatches = []
    ∧ (rtcRun [⟨50, false, 1700000000⟩, ⟨36000000, false, 1700036000⟩]).dispatches = [] :=
  auth_not_ready_zero_dispatches _ _ (by decide) (by decide)

/-- C3: against any monotone simulated millisecond clock, consecutive
dispatches of either sketch's scheduler are separated by at least the
configured interval (pairwise, in real time, across 32-bit millis wrap);
a tick grows the dispatch history by at most one; and a tick whose gate
holds after a stall of any length past the interval dispatches exactly
once, however many intervals were missed. -/
theorem scheduler_interval_separation
    (is : List GpsTickIn) (rs : List RtcTickIn)
    (hg : monoTimesB (is.map GpsTickIn.millisReal) = true)
    (hr : monoTimesB (rs.map RtcTickIn.millisReal) = true) :
    (gpsRun is).dispatches.Pairwise (fun a b => b.1 + sendInterval ≤ a.1)
    ∧ (rtcRun rs).dispatches.Pairwise (fun a b => b.1 + rtcSendInterval ≤ a.1)
    ∧ (∀ (s : SchedState) (i : GpsTickIn),
        (gpsLoopTick s i).dispatches.length ≤ s.dispatches.length + 1)
    ∧ (∀ (s : SchedState) (i : GpsTickIn), gpsGate i = true →
        sendInterval ≤ usub32 (i.millisReal % u32) s.lastSendTime →
        (gpsLoopTick s i).dispatches.length = s.dispatches.length + 1) := by
  refine ⟨gpsRun_pairwise is hg, rtcRun_pairwise rs hr, ?_, ?_⟩
  · intro s i
    unfold gpsLoopTick schedTick
    split
    · split <;> simp
    · simp
  · intro s i hgate hel
    simp [gpsLoopTick, schedTick, hgate, hel]

/-- Witness for C3 on a concrete two-tick trace an interval apart, plus a
resumption tick after a five-interval stall. -/
theorem scheduler_interval_separation_witness :
    (gpsRun [⟨60000, true, true, true, true⟩, ⟨120000, true, true, true, true⟩]).dispatches.Pairwise
        (fun a b => b.1 + sendInterval ≤ a.1)
    ∧ (rtcRun [⟨6000, true, 1700000006⟩, ⟨12000, true, 1700000012⟩]).dispatches.Pairwise
        (fun a b => b.1 + rtcSendInterval ≤ a.1)
    ∧ (gpsLoopTick ⟨60000, [(60000, 60000)]⟩ ⟨360000, true, true, true, true⟩).dispatches.length
        = (⟨60000, [(60000, 60000)]⟩ : SchedState).dispatches.length + 1 := by
  have h := scheduler_interval_separation
      [⟨60000, true, true, true, true⟩, ⟨120000, true, true, true, true⟩]
      [⟨6000, true, 1700000006⟩, ⟨12000, true, 1700000012⟩] (by decide) (by decide)
  exact ⟨h.1, h.2.1,
    h.2.2.2 ⟨60000, [(60000, 60000)]⟩ ⟨360000, true, true, true, true⟩ (by decide) (by decide)⟩

/-- C6: boot-time network-time reconciliation polls for at most the
bounded budget (20 half-second sleeps, i.e. 10 s of wall time); it ends
in the synced state exactly when some poll inside the budget clears the
known-recent lower bound, in which case the RTC is overwritten with the
final polled value, and otherwise the RTC keeps its previous value; and
the sync outcome gates nothing later — loop traces agreeing on millis
and readiness dispatch at identical times whatever epochs the RTC
serves afterwards. -/
theorem ntp_boot_reconciliation (f : Nat → Nat) (rtcPrev : Nat) :
    (∃ j, j ≤ 20 ∧ ntpWait f 0 = f j)
    ∧ ((ntpSync f rtcPrev).synced = true ↔ ∃ j, j ≤ 20 ∧ ntpValidEpoch ≤ f j)
    ∧ ((ntpSync f rtcPrev).rtcEpoch
        = if (ntpSync f rtcPrev).synced then ntpWait f 0 else rtcPrev)
    ∧ (∀ tr₁ tr₂ : List RtcTickIn,
        tr₁.map (fun i => (i.millisReal, i.ready))
            = tr₂.map (fun i => (i.millisReal, i.ready)) →
        (rtcRun tr₁).dispatches.map Prod.fst
            = (rtcRun tr₂).dispatches.map Prod.fst) := by
  obtain ⟨⟨j, hj0, hj20, hjW⟩, hiff⟩ := ntpWait_spec f 20 0 (by omega) (by omega)
  refine ⟨⟨j, hj20, hjW⟩, ?_, ?_, ?_⟩
  · constructor
    · intro hs
      have hcond : ntpValidEpoch ≤ ntpWait f 0 := by
        by_contra hc
        simp [ntpSync, hc] at hs
      obtain ⟨j', _, h2, h3⟩ := hiff.mp hcond
      exact ⟨j', h2, h3⟩
    · rintro ⟨j', hj', hle⟩
      have hcond : ntpValidEpoch ≤ ntpWait f 0 :=
        hiff.mpr ⟨j', Nat.zero_le _, hj', hle⟩
      simp [ntpSync, hcond]
  · by_cases hcond : ntpValidEpoch ≤ ntpWait f 0
    · simp [ntpSync, hcond]
    · simp [ntpSync, hcond]
  · intro tr₁ tr₂ h
    exact (rtcRun_sched_independent tr₁ tr₂ initState initState rfl rfl h).1

/-- A poll source for the C6 witness: NTP answers a plausible epoch
immediately. -/
def constPoll : Nat → Nat :=
  fun _ => 1700000000

/-- Witness for C6: an immediately-successful sync, and two concrete
traces differing only in the served RTC epochs dispatching identically. -/
theorem ntp_boot_reconciliation_witness :
    (∃ j, j ≤ 20 ∧ ntpWait constPoll 0 = constPoll j)
    ∧ ((ntpSync constPoll 123).synced = true ↔
        ∃ j, j ≤ 20 ∧ ntpValidEpoch ≤ constPoll j)
    ∧ ((ntpSync constPoll 123).rtcEpoch
        = if (ntpSync constPoll 123).synced then ntpWait constPoll 0 else 123)
    ∧ (rtcRun [⟨6000, true, 1700000006⟩]).dispatches.map Prod.fst
        = (rtcRun [⟨6000, true, 42⟩]).dispatches.map Prod.fst := by
  have h := ntp_boot_reconciliation constPoll 123
  exact ⟨h.1, h.2.1, h.2.2.1, h.2.2.2 [⟨6000, true, 1700000006⟩] [⟨6000, true, 42⟩] (by decide)⟩

/-- The trace on which the GPS logger's unique key repeats: a dispatch at
one minute of uptime, a dispatch just before the 32-bit millis counter
wraps (about 49.7 days in), and a dispatch one minute after the wrap,
whose `String(millis())` key equals the first dispatch's. -/
def wrapTrace : List GpsTickIn :=
  [⟨60000, true, true, true, true⟩,
   ⟨4294967295, true, true, true, true⟩,
   ⟨4295027296, true, true, true, true⟩]

/-- C8 counterexample: on a monotone real-time trace that crosses the
32-bit millis wrap, the GPS logger dispatches three uploads at three
distinct instants, two of which carry the same path key 60000 — the
second silently overwrites the first at the same path. -/
theorem gps_key_collision_on_wrap :
    monoTimesB (wrapTrace.map GpsTickIn.millisReal) = true
    ∧ ((gpsRun wrapTrace).dispatches.map Prod.fst).Nodup
    ∧ (gpsRun wrapTrace).dispatches.map Prod.snd = [60000, 4294967295, 60000]
    ∧ ¬ ((gpsRun wrapTrace).dispatches.map Prod.snd).Nodup := by
  decide

/-- C8 amended: within one 32-bit wrap period of uptime (every tick time
below 2^32 ms), the GPS logger's millis keys are pairwise distinct; and
when the RTC serves epochs coherent with uptime (`e0 + millis / 1000`),
the sensor logger's epoch keys are pairwise distinct as well — no
dispatched upload overwrites an earlier one's path. -/
theorem upload_keys_unique
    (is : List GpsTickIn) (rs : List RtcTickIn) (e0 : Nat)
    (hg : monoTimesB (is.map GpsTickIn.millisReal) = true)
    (hgb : ∀ i ∈ is, i.millisReal < u32)
    (hr : monoTimesB (rs.map RtcTickIn.millisReal) = true)
    (hrc : ∀ i ∈ rs, i.rtcEpoch = e0 + i.millisReal / 1000) :
    ((gpsRun is).dispatches.map Prod.snd).Nodup
    ∧ ((rtcRun rs).dispatches.map Prod.snd).Nodup := by
  constructor
  · have hpw := gpsRun_pairwise is hg
    unfold List.Nodup
    rw [List.pairwise_map]
    refine List.Pairwise.imp_of_mem ?_ hpw
    intro a b ha hb hR
    rcases gpsRun_dispatch_src is initState a ha with h | ⟨ia, hia, haa⟩
    · simp [initState] at h
    rcases gpsRun_dispatch_src is initState b hb with h | ⟨ib, hib, hbb⟩
    · simp [initState] at h
    have ha2 : a.2 = a.1 := by
      rw [haa]
      exact Nat.mod_eq_of_lt (hgb ia hia)
    have hb2 : b.2 = b.1 := by
      rw [hbb]
      exact Nat.mod_eq_of_lt (hgb ib hib)
    have : sendInterval = 60000 := rfl
    omega
  · have hpw := rtcRun_pairwise rs hr
    unfold List.Nodup
    rw [List.pairwise_map]
    refine List.Pairwise.imp_of_mem ?_ hpw
    intro a b ha hb hR
    rcases rtcRun_dispatch_src rs initState a ha with h | ⟨ia, hia, haa⟩
    · simp [initState] at h
    rcases rtcRun_dispatch_src rs initState b hb with h | ⟨ib, hib, hbb⟩
    · simp [initState] at h
    have ha2 : a.2 = e0 + a.1 / 1000 := by
      rw [haa]
      exact hrc ia hia
    have hb2 : b.2 = e0 + b.1 / 1000 := by
      rw [hbb]
      exact hrc ib hib
    have : rtcSendInterval = 6000 := rfl
    omega

/-- Witness for C8 amended, on short concrete runs of both sketches. -/
theorem upload_keys_unique_witness :
    ((gpsRun [⟨60000, true, true, true, true⟩, ⟨121000, true, true, true, true⟩]).dispatches.map
        Prod.snd).Nodup
    ∧ ((rtcRun [⟨6000, true, 1700000006⟩, ⟨13000, true, 1700000013⟩]).dispatches.map
        Prod.snd).Nodup :=
  upload_keys_unique
    [⟨60000, true, true, true, true⟩, ⟨121000, true, true, true, true⟩]
    [⟨6000, true, 1700000006⟩, ⟨13000, true, 1700000013⟩]
    1700000000 (by decide) (by decide) (by decide) (by decide)

set_option maxRecDepth 8192 in
/-- C9 counterexample: `gpsToEpoch` runs in 32-bit `unsigned long`
arithmetic, and on 2106-02-07 (year ≥ 1970, all fields in range) the
epoch crosses 2^32: one second after 06:28:15 the result wraps to 0
instead of increasing, refuting strict monotonicity in the time-of-day
tuple as universally claimed. -/
theorem gpsToEpoch_wrap_breaks_monotonicity :
    gpsToEpoch 2106 2 7 6 28 15 = 4294967295
    ∧ gpsToEpoch 2106 2 7 6 28 16 = 0
    ∧ ¬ gpsToEpoch 2106 2 7 6 28 15 < gpsToEpoch 2106 2 7 6 28 16 := by
  decide

/-- C9 amended: on any date from 1970 on whose final second still has an
unwrapped epoch below 2^32 (every date up to 2106-02-06, hence all dates
a GPS can report this century), increasing the in-range time-of-day
tuple lexicographically strictly increases `gpsToEpoch`. -/
theorem gpsToEpoch_time_strict_mono
    (year month day h1 m1 s1 h2 m2 s2 : Nat)
    (hyr : 1970 ≤ year)
    (hnw : gpsToEpochRaw year month day 23 59 59 < u32)
    (hh1 : h1 ≤ 23) (hm1 : m1 ≤ 59) (hs1 : s1 ≤ 59)
    (hh2 : h2 ≤ 23) (hm2 : m2 ≤ 59) (hs2 : s2 ≤ 59)
    (hlex : h1 < h2 ∨ (h1 = h2 ∧ m1 < m2) ∨ (h1 = h2 ∧ m1 = m2 ∧ s1 < s2)) :
    gpsToEpoch year month day h1 m1 s1 < gpsToEpoch year month day h2 m2 s2 := by
  unfold gpsToEpoch gpsToEpochRaw
  unfold gpsToEpochRaw at hnw
  unfold u32 at hnw ⊢
  generalize epochDays year month day = D at hnw ⊢
  have hb1 : D * 86400 + h1 * 3600 + m1 * 60 + s1 < 4294967296 := by omega
  have hb2 : D * 86400 + h2 * 3600 + m2 * 60 + s2 < 4294967296 := by omega
  rw [Nat.mod_eq_of_lt hb1, Nat.mod_eq_of_lt hb2]
  omega

/-- Witness for C9 amended at 2024-03-01, 00:00:00 versus 00:00:01. -/
theorem gpsToEpoch_time_strict_mono_witness :
    gpsToEpoch 2024 3 1 0 0 0 < gpsToEpoch 2024 3 1 0 0 1 :=
  gpsToEpoch_time_strict_mono 2024 3 1 0 0 0 0 0 1 (by decide) (by decide)
    (by decide) (by decide) (by decide) (by decide) (by decide) (by decide)
    (by decide)

end VehicleTrak
